import Mathlib

set_option maxRecDepth 10000

/-! Verification development for the muonfp passive TCP fingerprinting tool.

The definitions below are a shallow embedding of the Rust sources:
src/fingerprint.rs (options decoder, eligibility test, fingerprint record),
src/main.rs (direction classification, capture loop pipeline),
src/network_tap.rs (pcap global header) and
src/rotating_writer.rs (size-bounded rotating output stream).
Bytes are modelled as Nat, byte buffers as List Nat, and partial Rust
operations that can panic are modelled with Option (none marks a panic).
The file system always succeeds in the model; the rotating writer is a pure
state machine whose finalized list records, in order, every segment that was
flushed and renamed to its final extension. -/

namespace Muonfp

/-- Big-endian 16-bit value from two bytes, as in u16::from_be_bytes. -/
def u16_from_be (hi lo : Nat) : Nat := hi * 256 + lo

/-- TcpFlags::SYN from the pnet crate: bit 1 of the flags byte. -/
def TcpFlags_SYN : Nat := 2

/-- TcpFlags::ACK from the pnet crate: bit 4 of the flags byte. -/
def TcpFlags_ACK : Nat := 16

/-- Embedding of is_syn_packet from src/fingerprint.rs lines 86-90. -/
def is_syn_packet (tcp_flags : Nat) (is_incoming : Bool) : Bool :=
  let is_syn := tcp_flags &&& TcpFlags_SYN != 0
  let is_ack := tcp_flags &&& TcpFlags_ACK != 0
  (is_incoming && is_syn && !is_ack) || (!is_incoming && is_syn && is_ack)

/-- A TCP flags byte assembled from its eight flag bits
(FIN = 1, SYN = 2, RST = 4, PSH = 8, ACK = 16, URG = 32, ECE = 64, CWR = 128). -/
def mkFlags (fin syn rst psh ack urg ece cwr : Bool) : Nat :=
  (cond fin 1 0) + (cond syn 2 0) + (cond rst 4 0) + (cond psh 8 0) +
    (cond ack 16 0) + (cond urg 32 0) + (cond ece 64 0) + (cond cwr 128 0)

/-- Embedding of the direction classification from src/main.rs lines 87-93:
the result pairs the remote (fingerprint) address with the is_incoming flag;
none models the continue statement that drops frames with no local address. -/
def classify_direction (local_ips : List Nat) (source_ip destination_ip : Nat) :
    Option (Nat × Bool) :=
  if destination_ip ∈ local_ips then some (source_ip, true)
  else if source_ip ∈ local_ips then some (destination_ip, false)
  else none

/-- Embedding of the Fingerprint struct from src/fingerprint.rs. The timestamp
and the remote address are abstracted to Nat. -/
structure Fingerprint where
  hostname : String
  timestamp : Nat
  ip_address : Nat
  muonfp_fingerprint : String
  deriving DecidableEq

/-- Embedding of Fingerprint::new from src/fingerprint.rs lines 14-29.
The ambient clock read Utc::now() is passed in as the now argument. -/
def Fingerprint.new (hostname : String) (ip : Nat) (window_size : Nat)
    (options mss window_scale : String) (now : Nat) : Fingerprint :=
  { hostname := hostname,
    timestamp := now,
    ip_address := ip,
    muonfp_fingerprint :=
      toString window_size ++ ":" ++ options ++ ":" ++ mss ++ ":" ++ window_scale }

/-- Embedding of the while loop of extract_tcp_options
(src/fingerprint.rs lines 44-81). The loop state is the index i plus the three
accumulated strings. The fuel argument decreases once per iteration; because i
grows by at least one per iteration, fuel equal to the slice length is enough,
and on exhaustion the fuel-zero result coincides with the loop-exit result, so
the function computes exactly what the Rust loop computes. Every slice read is
performed with getD under the same bounds test the Rust code makes. -/
def optionsLoop (slice : List Nat) : Nat → Nat → String → String → String →
    String × String × String
  | 0, _, acc, mss, ws => (acc, mss, ws)
  | fuel + 1, i, acc, mss, ws =>
    if i < slice.length then
      let kind := slice.getD i 0
      if kind = 0 then
        (acc ++ "0-", mss, ws)
      else if kind = 1 then
        optionsLoop slice fuel (i + 1) (acc ++ "1-") mss ws
      else if kind = 2 then
        let mss2 := if slice.length ≥ i + 4 then
            toString (u16_from_be (slice.getD (i + 2) 0) (slice.getD (i + 3) 0))
          else mss
        optionsLoop slice fuel (i + 4) (acc ++ "2-") mss2 ws
      else if kind = 3 then
        let ws2 := if slice.length ≥ i + 3 then toString (slice.getD (i + 2) 0) else ws
        optionsLoop slice fuel (i + 3) (acc ++ "3-") mss ws2
      else
        let acc2 := acc ++ toString kind ++ "-"
        if slice.length > i + 1 then
          let len := slice.getD (i + 1) 0
          if len < 2 then (acc2, mss, ws)
          else optionsLoop slice fuel (i + len) acc2 mss ws
        else (acc2, mss, ws)
    else (acc, mss, ws)

/-- Embedding of trim_end_matches applied to the dash character: remove every
trailing dash from the string. -/
def trim_end_matches_dash (s : String) : String :=
  String.mk ((s.data.reverse.dropWhile (fun c => c = '-')).reverse)

/-- Embedding of extract_tcp_options from src/fingerprint.rs lines 36-84.
The result is none exactly where the Rust code panics: reading
tcp_payload[12] out of range, or taking the slice tcp_payload[20..thl] when
thl < 20 (range starts after it ends) or thl > tcp_payload.len()
(range end out of bounds). Otherwise the decoded triple
(options kind sequence, mss, window scale) is returned. -/
def extract_tcp_options (tcp_payload : List Nat) : Option (String × String × String) :=
  match tcp_payload.get? 12 with
  | none => none
  | some b12 =>
    let tcp_header_length := (b12 >>> 4) * 4
    if 20 ≤ tcp_header_length ∧ tcp_header_length ≤ tcp_payload.length then
      let options_slice := (tcp_payload.drop 20).take (tcp_header_length - 20)
      let r := optionsLoop options_slice options_slice.length 0 "" "" ""
      some (trim_end_matches_dash r.1, r.2.1, r.2.2)
    else none

/-- The 24-byte pcap global header from src/network_tap.rs lines 39-48. -/
def pcap_global_header : List Nat :=
  [0xd4, 0xc3, 0xb2, 0xa1, 0x02, 0x00, 0x04, 0x00,
   0x00, 0x00, 0x00, 0x00, 0x00, 0x00, 0x00, 0x00,
   0xff, 0xff, 0x00, 0x00, 0x01, 0x00, 0x00, 0x00]

/-- The TCP payload of end-to-end scenario A of the spec: a 20-byte fixed
header whose data-offset nibble is 10 (header length 40, window 29200 at
bytes 14-15, SYN flag at byte 13), followed by the 20 option bytes
02 04 05 B4 01 03 03 07 01 01 08 0A and a complete (all-zero) timestamps
option body. -/
def scenario_a_payload : List Nat :=
  [0, 0, 0, 0, 0, 0, 0, 0, 0, 0, 0, 0, 0xa0, 0x02, 0x72, 0x10, 0, 0, 0, 0,
   0x02, 0x04, 0x05, 0xb4, 0x01, 0x03, 0x03, 0x07, 0x01, 0x01, 0x08, 0x0a,
   0, 0, 0, 0, 0, 0, 0, 0]

/-- One finalized (flushed and renamed) segment of a rotating writer:
disk is its total on-disk byte count, counted is the part of it that the
current_size counter had accumulated through write_packet. -/
structure Segment where
  disk : Nat
  counted : Nat
  deriving DecidableEq

/-- State of RotatingFileWriter from src/rotating_writer.rs. The two Option
fields current_file and current_path are set and cleared together in the Rust
code, so a single current_open flag models both. current_disk tracks the bytes
actually written to the open segment file (init action bytes included);
current_size is the struct's size counter. finalized records, in order, every
segment that was flushed and renamed to its final extension; init_bytes is the
byte count emitted by the init_new_file action on each fresh segment. -/
structure RotatingFileWriter where
  max_size : Nat
  init_bytes : Nat
  current_open : Bool
  current_size : Nat
  current_disk : Nat
  file_count : Nat
  finalized : List Segment
  deriving DecidableEq

/-- Embedding of RotatingFileWriter::rotate (src/rotating_writer.rs lines
36-69): flush and rename the open segment if any (appending it to finalized),
then open a fresh segment, run the init action on it (current_disk :=
init_bytes), reset current_size to zero and bump file_count. -/
def rotate (w : RotatingFileWriter) : RotatingFileWriter :=
  { w with
    finalized := if w.current_open then w.finalized ++ [⟨w.current_disk, w.current_size⟩]
      else w.finalized,
    current_open := true,
    current_disk := w.init_bytes,
    current_size := 0,
    file_count := w.file_count + 1 }

/-- Embedding of RotatingFileWriter::new (src/rotating_writer.rs lines 18-34):
build the closed initial state, then rotate once. -/
def RotatingFileWriter.new (max_size init_bytes : Nat) : RotatingFileWriter :=
  rotate { max_size := max_size, init_bytes := init_bytes, current_open := false,
           current_size := 0, current_disk := 0, file_count := 0, finalized := [] }

/-- Embedding of RotatingFileWriter::write_packet (src/rotating_writer.rs
lines 71-83): rotate first when the incoming record would push current_size
over max_size, then append the record to the open file, or fail when no file
is open. -/
def write_packet (w : RotatingFileWriter) (packet : List Nat) :
    Except String RotatingFileWriter :=
  let packet_size := packet.length
  let w2 := if w.current_size + packet_size > w.max_size then rotate w else w
  if w2.current_open then
    Except.ok { w2 with
      current_size := w2.current_size + packet_size,
      current_disk := w2.current_disk + packet_size }
  else
    Except.error ("No file currently open")

/-- Embedding of RotatingFileWriter::flush_and_close (src/rotating_writer.rs
lines 85-96): flush and rename the open segment if any; both Option fields are
taken, so the writer is left closed and a second call finds nothing to do. -/
def flush_and_close (w : RotatingFileWriter) : Except String RotatingFileWriter :=
  if w.current_open then
    Except.ok { w with
      current_open := false,
      finalized := w.finalized ++ [⟨w.current_disk, w.current_size⟩] }
  else
    Except.ok w

/-- Embedding of the Write::flush implementation (src/rotating_writer.rs lines
105-111): flush the inner buffer when a file is open, do nothing otherwise;
either way the call succeeds and the writer state is unchanged. -/
def RotatingFileWriter.flush (w : RotatingFileWriter) : Except String RotatingFileWriter :=
  Except.ok w

/-- Run a sequence of write_packet calls, stopping at the first error. -/
def runWrites (w : RotatingFileWriter) : List (List Nat) → Except String RotatingFileWriter
  | [] => Except.ok w
  | p :: ps =>
    match write_packet w p with
    | Except.ok w2 => runWrites w2 ps
    | Except.error e => Except.error e

/-- Decidable check that every finalized segment's counted byte size is within
the given limit. -/
def allCountedLe (w : RotatingFileWriter) (limit : Nat) : Bool :=
  w.finalized.all (fun s => decide (s.counted ≤ limit))

/-- Decidable check that every finalized segment's on-disk size is exactly the
init action's byte count plus its counted record bytes. -/
def allDiskIsInitPlusCounted (w : RotatingFileWriter) (ib : Nat) : Bool :=
  w.finalized.all (fun s => decide (s.disk = ib + s.counted))

/-- Size invariant of a rotating writer with limit M: the configured maximum
is M, the open segment's counter is within M, and every finalized segment's
counted size is within M. -/
def SizeInv (M : Nat) (w : RotatingFileWriter) : Prop :=
  w.max_size = M ∧ w.current_size ≤ M ∧ ∀ s ∈ w.finalized, s.counted ≤ M

/-- Disk accounting invariant with init-action byte count ib: the open
segment's on-disk bytes are ib plus the counted bytes, and likewise for every
finalized segment. -/
def DiskInv (ib : Nat) (w : RotatingFileWriter) : Prop :=
  w.init_bytes = ib ∧
  (w.current_open = true → w.current_disk = ib + w.current_size) ∧
  ∀ s ∈ w.finalized, s.disk = ib + s.counted

theorem pcap_global_header_length : pcap_global_header.length = 24 := rfl

/-- C1: the claim says the options decoder never panics for any payload of
length at least 20, including when the computed header length is below 20.
The code violates this: on a 20-byte all-zero payload (data-offset nibble 0,
header length 0) the Rust slice tcp_payload[20..0] panics, which the model
renders as none. -/
theorem C1_decoder_panics_on_zero_data_offset :
    (List.replicate 20 0).length = 20 ∧
      extract_tcp_options (List.replicate 20 0) = none := by
  constructor
  · rfl
  · rfl

/-- C3: the canonical signature built by Fingerprint::new depends only on the
handshake-derived fields (window size, options sequence, mss, window scale);
changing the hostname, the remote address or the timestamp never changes it,
so identical handshake shapes give identical signatures. -/
theorem C3_signature_independent_of_ip_and_time :
    ∀ (h h2 : String) (ip ip2 now now2 : Nat) (w : Nat) (o m s : String),
      (Fingerprint.new h ip w o m s now).muonfp_fingerprint =
        (Fingerprint.new h2 ip2 w o m s now2).muonfp_fingerprint := by
  intro h h2 ip ip2 now now2 w o m s
  rfl

/-- C4: for every flags byte and direction, is_syn_packet accepts exactly when
(inbound and SYN bit set and ACK bit clear) or (outbound and SYN bit set and
ACK bit set), where SYN is bit 1 and ACK is bit 4 of the flags byte. -/
theorem C4_eligibility_iff :
    ∀ (flags : Fin 256) (inc : Bool),
      is_syn_packet flags.val inc = true ↔
        ((inc = true ∧ Nat.testBit flags.val 1 = true ∧ Nat.testBit flags.val 4 = false) ∨
         (inc = false ∧ Nat.testBit flags.val 1 = true ∧ Nat.testBit flags.val 4 = true)) := by
  decide

/-- C5: frames whose destination is local are classified Inbound with remote
equal to the source; otherwise a local source gives Outbound with remote the
destination; otherwise the frame is dropped; and when both addresses are
local, Inbound wins. -/
theorem C5_direction_classification :
    ∀ (local_ips : List Nat) (src dst : Nat),
      (dst ∈ local_ips → classify_direction local_ips src dst = some (src, true)) ∧
      (dst ∉ local_ips → src ∈ local_ips →
        classify_direction local_ips src dst = some (dst, false)) ∧
      (dst ∉ local_ips → src ∉ local_ips → classify_direction local_ips src dst = none) ∧
      (dst ∈ local_ips → src ∈ local_ips →
        classify_direction local_ips src dst = some (src, true)) := by
  intro local_ips src dst
  refine ⟨fun hd => ?_, fun hd hs => ?_, fun hd hs => ?_, fun hd _ => ?_⟩
  · simp [classify_direction, hd]
  · simp [classify_direction, hd, hs]
  · simp [classify_direction, hd, hs]
  · simp [classify_direction, hd]

/-- Witness for C5 at concrete inputs covering all four cases. -/
theorem C5_direction_classification_witness :
    classify_direction [5, 7] 3 5 = some (3, true) ∧
      classify_direction [5, 7] 5 9 = some (9, false) ∧
      classify_direction [5, 7] 3 9 = none ∧
      classify_direction [5, 7] 5 7 = some (5, true) :=
  ⟨(C5_direction_classification [5, 7] 3 5).1 (by decide),
   (C5_direction_classification [5, 7] 5 9).2.1 (by decide) (by decide),
   (C5_direction_classification [5, 7] 3 9).2.2.1 (by decide) (by decide),
   (C5_direction_classification [5, 7] 5 7).2.2.2 (by decide) (by decide)⟩

/-- C6: decoding the scenario A payload, whose options region is
02 04 05 B4 01 03 03 07 01 01 08 0A followed by a complete timestamps option,
yields kind sequence 2-1-3-1-1-8, mss 1460 and window scale 7. -/
theorem C6_scenario_a :
    extract_tcp_options scenario_a_payload = some ("2-1-3-1-1-8", "1460", "7") := by
  rfl

/-- Auxiliary: on a flags byte built from its eight bits, is_syn_packet
reduces to the boolean combination of the SYN and ACK bits alone. -/
theorem is_syn_packet_mkFlags :
    ∀ (fin syn rst psh ack urg ece cwr inc : Bool),
      is_syn_packet (mkFlags fin syn rst psh ack urg ece cwr) inc =
        ((inc && syn && !ack) || (!inc && syn && ack)) := by
  decide

/-- C10: eligibility depends only on the SYN and ACK bits: changing any of
the other six flag bits (FIN, RST, PSH, URG, ECE, CWR) in any way never
changes whether is_syn_packet accepts, for either direction. -/
theorem C10_depends_only_on_syn_and_ack :
    ∀ (fin syn rst psh ack urg ece cwr fin2 rst2 psh2 urg2 ece2 cwr2 inc : Bool),
      is_syn_packet (mkFlags fin syn rst psh ack urg ece cwr) inc =
        is_syn_packet (mkFlags fin2 syn rst2 psh2 ack urg2 ece2 cwr2) inc := by
  intro fin syn rst psh ack urg ece cwr fin2 rst2 psh2 urg2 ece2 cwr2 inc
  rw [is_syn_packet_mkFlags, is_syn_packet_mkFlags]

theorem rotate_open (w : RotatingFileWriter) : (rotate w).current_open = true := rfl

theorem rotate_max (w : RotatingFileWriter) : (rotate w).max_size = w.max_size := rfl

theorem rotate_init (w : RotatingFileWriter) : (rotate w).init_bytes = w.init_bytes := rfl

theorem rotate_size (w : RotatingFileWriter) : (rotate w).current_size = 0 := rfl

theorem rotate_disk (w : RotatingFileWriter) : (rotate w).current_disk = w.init_bytes := rfl

theorem rotate_finalized (w : RotatingFileWriter) :
    (rotate w).finalized =
      if w.current_open then w.finalized ++ [⟨w.current_disk, w.current_size⟩]
      else w.finalized := rfl

/-- Case analysis form of write_packet: the rotate branch always finds the
fresh segment open, the other branch writes in place or fails closed. -/
theorem write_packet_eq (w : RotatingFileWriter) (p : List Nat) :
    write_packet w p =
      if w.current_size + p.length > w.max_size then
        Except.ok { rotate w with
          current_size := (rotate w).current_size + p.length,
          current_disk := (rotate w).current_disk + p.length }
      else if w.current_open then
        Except.ok { w with
          current_size := w.current_size + p.length,
          current_disk := w.current_disk + p.length }
      else Except.error ("No file currently open") := by
  unfold write_packet
  by_cases hr : w.current_size + p.length > w.max_size
  · simp [hr, rotate_open]
  · simp [hr]

theorem sizeInv_rotate {M : Nat} {w : RotatingFileWriter} (h : SizeInv M w) :
    SizeInv M (rotate w) := by
  obtain ⟨hm, hc, hf⟩ := h
  refine ⟨hm, Nat.zero_le M, ?_⟩
  intro s hs
  rw [rotate_finalized] at hs
  by_cases ho : w.current_open = true
  · rw [if_pos ho] at hs
    rcases List.mem_append.mp hs with h1 | h2
    · exact hf s h1
    · have hse := List.mem_singleton.mp h2
      subst hse
      exact hc
  · rw [if_neg ho] at hs
    exact hf s hs

theorem sizeInv_write {M : Nat} {w w2 : RotatingFileWriter} {p : List Nat}
    (h : SizeInv M w) (hp : p.length ≤ M) (hw : write_packet w p = Except.ok w2) :
    SizeInv M w2 := by
  rw [write_packet_eq] at hw
  by_cases hr : w.current_size + p.length > w.max_size
  · rw [if_pos hr] at hw
    obtain ⟨hm, hc, hf⟩ := sizeInv_rotate h
    injection hw with hw
    subst hw
    refine ⟨hm, ?_, hf⟩
    show (rotate w).current_size + p.length ≤ M
    rw [rotate_size]
    omega
  · rw [if_neg hr] at hw
    obtain ⟨hm, hc, hf⟩ := h
    by_cases ho : w.current_open = true
    · rw [if_pos ho] at hw
      injection hw with hw
      subst hw
      refine ⟨hm, ?_, hf⟩
      show w.current_size + p.length ≤ M
      omega
    · rw [if_neg ho] at hw
      exact absurd hw (by simp)

theorem sizeInv_close {M : Nat} {w w2 : RotatingFileWriter}
    (h : SizeInv M w) (hw : flush_and_close w = Except.ok w2) :
    SizeInv M w2 := by
  obtain ⟨hm, hc, hf⟩ := h
  unfold flush_and_close at hw
  by_cases ho : w.current_open = true
  · rw [if_pos ho] at hw
    injection hw with hw
    subst hw
    refine ⟨hm, hc, ?_⟩
    intro s hs
    rcases List.mem_append.mp hs with h1 | h2
    · exact hf s h1
    · have hse := List.mem_singleton.mp h2
      subst hse
      exact hc
  · rw [if_neg ho] at hw
    injection hw with hw
    subst hw
    exact ⟨hm, hc, hf⟩

theorem sizeInv_new (M ib : Nat) : SizeInv M (RotatingFileWriter.new M ib) := by
  apply sizeInv_rotate
  refine ⟨rfl, Nat.zero_le M, ?_⟩
  intro s hs
  simp at hs

theorem sizeInv_runWrites {M : Nat} :
    ∀ (ps : List (List Nat)) (w w2 : RotatingFileWriter), SizeInv M w →
      (∀ p ∈ ps, p.length ≤ M) → runWrites w ps = Except.ok w2 → SizeInv M w2 := by
  intro ps
  induction ps with
  | nil =>
    intro w w2 hI _ hr
    unfold runWrites at hr
    injection hr with hr
    subst hr
    exact hI
  | cons p ps ih =>
    intro w w2 hI hps hr
    unfold runWrites at hr
    cases hwp : write_packet w p with
    | ok w1 =>
      rw [hwp] at hr
      exact ih w1 w2 (sizeInv_write hI (hps p (List.mem_cons_self p ps)) hwp)
        (fun q hq => hps q (List.mem_cons_of_mem p hq)) hr
    | error e =>
      rw [hwp] at hr
      exact absurd hr (by simp)

theorem diskInv_rotate {ib : Nat} {w : RotatingFileWriter} (h : DiskInv ib w) :
    DiskInv ib (rotate w) := by
  obtain ⟨hi, hc, hf⟩ := h
  refine ⟨hi, ?_, ?_⟩
  · intro _
    show w.init_bytes = ib + 0
    omega
  · intro s hs
    rw [rotate_finalized] at hs
    by_cases ho : w.current_open = true
    · rw [if_pos ho] at hs
      rcases List.mem_append.mp hs with h1 | h2
      · exact hf s h1
      · have hse := List.mem_singleton.mp h2
        subst hse
        exact hc ho
    · rw [if_neg ho] at hs
      exact hf s hs

theorem diskInv_write {ib : Nat} {w w2 : RotatingFileWriter} {p : List Nat}
    (h : DiskInv ib w) (hw : write_packet w p = Except.ok w2) :
    DiskInv ib w2 := by
  rw [write_packet_eq] at hw
  by_cases hr : w.current_size + p.length > w.max_size
  · rw [if_pos hr] at hw
    obtain ⟨hi, hc, hf⟩ := diskInv_rotate h
    injection hw with hw
    subst hw
    refine ⟨hi, ?_, hf⟩
    intro _
    show (rotate w).current_disk + p.length = ib + ((rotate w).current_size + p.length)
    have := hc (rotate_open w)
    omega
  · rw [if_neg hr] at hw
    obtain ⟨hi, hc, hf⟩ := h
    by_cases ho : w.current_open = true
    · rw [if_pos ho] at hw
      injection hw with hw
      subst hw
      refine ⟨hi, ?_, hf⟩
      intro _
      show w.current_disk + p.length = ib + (w.current_size + p.length)
      have := hc ho
      omega
    · rw [if_neg ho] at hw
      exact absurd hw (by simp)

theorem diskInv_close {ib : Nat} {w w2 : RotatingFileWriter}
    (h : DiskInv ib w) (hw : flush_and_close w = Except.ok w2) :
    DiskInv ib w2 := by
  obtain ⟨hi, hc, hf⟩ := h
  unfold flush_and_close at hw
  by_cases ho : w.current_open = true
  · rw [if_pos ho] at hw
    injection hw with hw
    subst hw
    refine ⟨hi, ?_, ?_⟩
    · intro hfalse
      simp at hfalse
    · intro s hs
      rcases List.mem_append.mp hs with h1 | h2
      · exact hf s h1
      · have hse := List.mem_singleton.mp h2
        subst hse
        exact hc ho
  · rw [if_neg ho] at hw
    injection hw with hw
    subst hw
    exact ⟨hi, hc, hf⟩

theorem diskInv_new (M ib : Nat) : DiskInv ib (RotatingFileWriter.new M ib) := by
  apply diskInv_rotate
  refine ⟨rfl, ?_, ?_⟩
  · intro hfalse
    simp at hfalse
  · intro s hs
    simp at hs

theorem diskInv_runWrites {ib : Nat} :
    ∀ (ps : List (List Nat)) (w w2 : RotatingFileWriter), DiskInv ib w →
      runWrites w ps = Except.ok w2 → DiskInv ib w2 := by
  intro ps
  induction ps with
  | nil =>
    intro w w2 hI hr
    unfold runWrites at hr
    injection hr with hr
    subst hr
    exact hI
  | cons p ps ih =>
    intro w w2 hI hr
    unfold runWrites at hr
    cases hwp : write_packet w p with
    | ok w1 =>
      rw [hwp] at hr
      exact ih w1 w2 (diskInv_write hI hwp) hr
    | error e =>
      rw [hwp] at hr
      exact absurd hr (by simp)

/-- C2 counterexample: the claim says no finalized segment ever exceeds the
maximum, for every sequence of records. With maximum 10, appending a single
11-byte record and closing produces a finalized segment of 11 counted bytes:
the pre-check rotates to a fresh segment but then writes the oversized record
into it anyway. -/
theorem C2_counterexample :
    ((runWrites (RotatingFileWriter.new 10 0) [List.replicate 11 0]).bind
        flush_and_close).map (fun w => allCountedLe w 10) = Except.ok false := by
  rfl

/-- C2 amended: provided every appended record's size is at most the
configured maximum M, every finalized segment's counted byte size (the bytes
write_packet charged against the limit) is at most M, for every sequence of
appends followed by the closing flush. -/
theorem C2_amended_no_oversized_segment :
    ∀ (M ib : Nat) (ps : List (List Nat)) (w1 w2 : RotatingFileWriter),
      (∀ p ∈ ps, p.length ≤ M) →
      runWrites (RotatingFileWriter.new M ib) ps = Except.ok w1 →
      flush_and_close w1 = Except.ok w2 →
      allCountedLe w2 M = true := by
  intro M ib ps w1 w2 hps hrun hclose
  have h1 := sizeInv_runWrites ps (RotatingFileWriter.new M ib) w1 (sizeInv_new M ib) hps hrun
  obtain ⟨hm, hc, hf⟩ := sizeInv_close h1 hclose
  unfold allCountedLe
  rw [List.all_eq_true]
  intro s hs
  exact decide_eq_true_eq.mpr (hf s hs)

/-- Witness for C2: three 40-byte records against a 100-byte maximum with a
24-byte init header give two finalized segments of 80 and 40 counted bytes. -/
theorem C2_amended_witness :
    allCountedLe ⟨100, 24, false, 40, 64, 2, [⟨104, 80⟩, ⟨64, 40⟩]⟩ 100 = true :=
  C2_amended_no_oversized_segment 100 24
    [List.replicate 40 0, List.replicate 40 0, List.replicate 40 0]
    ⟨100, 24, true, 40, 64, 2, [⟨104, 80⟩]⟩
    ⟨100, 24, false, 40, 64, 2, [⟨104, 80⟩, ⟨64, 40⟩]⟩
    (by decide) (by rfl) (by rfl)

/-- C7: flush_and_close is idempotent: whenever a first call succeeds and
yields the closed state w2, a second call succeeds and returns w2 unchanged,
so in particular the finalized list, which records every rename, gains no
second rename of any segment. -/
theorem C7_close_idempotent :
    ∀ (w w2 : RotatingFileWriter), flush_and_close w = Except.ok w2 →
      flush_and_close w2 = Except.ok w2 := by
  intro w w2 h
  unfold flush_and_close at h ⊢
  by_cases ho : w.current_open = true
  · rw [if_pos ho] at h
    injection h with h
    subst h
    rw [if_neg (by simp)]
  · rw [if_neg ho] at h
    injection h with h
    subst h
    rw [if_neg ho]

/-- Witness for C7: closing a freshly opened writer and closing again. -/
theorem C7_close_idempotent_witness :
    flush_and_close ⟨10, 0, false, 0, 0, 1, [⟨0, 0⟩]⟩ =
      Except.ok ⟨10, 0, false, 0, 0, 1, [⟨0, 0⟩]⟩ :=
  C7_close_idempotent (RotatingFileWriter.new 10 0) ⟨10, 0, false, 0, 0, 1, [⟨0, 0⟩]⟩
    (by rfl)

/-- C8: for every run of appends from a fresh writer followed by the closing
flush, every finalized segment's on-disk byte size equals the init action's
byte count (for the raw trace stream, the 24-byte pcap global header) plus the
record bytes counted against max_size: init bytes are emitted after rotation
and the counter is reset to zero after the init action runs, so they are never
charged against the limit. -/
theorem C8_disk_is_init_plus_counted :
    ∀ (M ib : Nat) (ps : List (List Nat)) (w1 w2 : RotatingFileWriter),
      runWrites (RotatingFileWriter.new M ib) ps = Except.ok w1 →
      flush_and_close w1 = Except.ok w2 →
      allDiskIsInitPlusCounted w2 ib = true := by
  intro M ib ps w1 w2 hrun hclose
  have h1 := diskInv_runWrites ps (RotatingFileWriter.new M ib) w1 (diskInv_new M ib) hrun
  obtain ⟨hi, hc, hf⟩ := diskInv_close h1 hclose
  unfold allDiskIsInitPlusCounted
  rw [List.all_eq_true]
  intro s hs
  exact decide_eq_true_eq.mpr (hf s hs)

/-- Witness for C8: one 30-byte record against a 50-byte maximum with the
24-byte pcap header as init action; the finalized segment holds 54 bytes on
disk, 24 of header plus 30 counted. -/
theorem C8_disk_is_init_plus_counted_witness :
    allDiskIsInitPlusCounted ⟨50, 24, false, 30, 54, 1, [⟨54, 30⟩]⟩ 24 = true :=
  C8_disk_is_init_plus_counted 50 24 [List.replicate 30 0]
    ⟨50, 24, true, 30, 54, 1, []⟩ ⟨50, 24, false, 30, 54, 1, [⟨54, 30⟩]⟩
    (by rfl) (by rfl)

/-- C9 counterexample: the claim says every write_packet after a successful
flush_and_close fails without creating or reopening any file. But current_size
is not reset by flush_and_close: with maximum 10, after appending 8 bytes and
closing, a 5-byte write finds 8 + 5 > 10, rotates, and thereby silently opens
a brand-new segment (file_count goes from 1 to 2) and succeeds. -/
theorem C9_counterexample :
    ((((runWrites (RotatingFileWriter.new 10 0) [List.replicate 8 0]).bind
          flush_and_close).bind
        (fun w => write_packet w (List.replicate 5 0))).map
      (fun w => (w.current_open, w.file_count))) = Except.ok (true, 2) := by
  rfl

/-- C9 amended: after flush_and_close succeeds, a subsequent write_packet
returns the io error No file currently open, provided the leftover size
counter plus the record size does not exceed max_size (otherwise the pre-check
rotates and silently reopens a fresh segment, as the counterexample shows);
and a subsequent flush succeeds with the state unchanged. -/
theorem C9_amended_write_after_close_errors :
    ∀ (w w2 : RotatingFileWriter) (p : List Nat),
      flush_and_close w = Except.ok w2 →
      w2.current_size + p.length ≤ w2.max_size →
      write_packet w2 p = Except.error ("No file currently open") ∧
        RotatingFileWriter.flush w2 = Except.ok w2 := by
  intro w w2 p hclose hle
  have hopen : w2.current_open = false := by
    unfold flush_and_close at hclose
    by_cases ho : w.current_open = true
    · rw [if_pos ho] at hclose
      injection hclose with hclose
      subst hclose
      rfl
    · rw [if_neg ho] at hclose
      injection hclose with hclose
      subst hclose
      simpa using ho
  constructor
  · rw [write_packet_eq]
    rw [if_neg (by omega)]
    rw [if_neg (by simp [hopen])]
  · rfl

/-- Witness for C9: a closed writer with residual counter 0 rejects a 3-byte
write and still accepts flush. -/
theorem C9_amended_witness :
    write_packet ⟨10, 0, false, 0, 0, 1, [⟨0, 0⟩]⟩ (List.replicate 3 0) =
        Except.error ("No file currently open") ∧
      RotatingFileWriter.flush ⟨10, 0, false, 0, 0, 1, [⟨0, 0⟩]⟩ =
        Except.ok ⟨10, 0, false, 0, 0, 1, [⟨0, 0⟩]⟩ :=
  C9_amended_write_after_close_errors (RotatingFileWriter.new 10 0)
    ⟨10, 0, false, 0, 0, 1, [⟨0, 0⟩]⟩ (List.replicate 3 0) (by rfl) (by decide)

end Muonfp
